import Mathlib

/-!
Shallow embedding of the branch server of the distributed-bank repository
(`src/branch_server.py`).  Balances and amounts are modelled as exact
rationals (`ℚ`) standing for the REAL column / Python float values; the
claims under study are control-flow and order properties, not rounding
properties.  The sqlite tables become association lists:

  * `accounts`   : list of `(account_no, Account)` pairs, `account_no` the
                   primary key (uniqueness is a hypothesis where a claim
                   needs it);
  * `pending_tx` : list of `(txid, PendingRow)` pairs, `txid` the primary key.

Handler parameters coming from the JSON request are modelled as they are
read by the Python code: a possibly-missing string (`Option String`, with
Python truthiness: `none` and `some ""` are both falsy) and a possibly
missing or unparseable amount (`AVal`): `float(x)` succeeds on any JSON
number (constructor `num`) and raises on a non-numeric string
(constructor `bad`); a missing `"amount"` key defaults to `0.0`.
Each handler returns the response status together with the new state.
-/

structure Account where
  name : String
  balance : ℚ
deriving Repr, DecidableEq

structure PendingRow where
  account_no : String
  amount : ℚ
  type : String
deriving Repr, DecidableEq

structure BranchState where
  accounts : List (String × Account)
  pending_tx : List (String × PendingRow)
deriving Repr, DecidableEq

inductive RStatus where
  | ok : RStatus
  | err (msg : String) : RStatus
deriving Repr, DecidableEq

/-- A value found under a params key that the code passes to `float(...)`:
a JSON number (`num`) or a string that makes `float` raise (`bad`). -/
inductive AVal where
  | num (q : ℚ) : AVal
  | bad : AVal
deriving Repr, DecidableEq

/-- Embeds `float(params.get("amount", 0.0))` inside `try/except`:
missing key defaults to `0.0`; `bad` raises, giving `none`. -/
def parseAmt : Option AVal → Option ℚ
  | none => some 0
  | some (.num q) => some q
  | some .bad => none

/-- Python truthiness of a string parameter: `not x` is true for a missing
key (`None`) and for the empty string. -/
def truthy : Option String → Bool
  | none => false
  | some s => !(s == "")

/-- Embeds `SELECT ... FROM accounts WHERE account_no=?` + `fetchone`. -/
def get_account (s : BranchState) (acc : String) : Option Account :=
  (s.accounts.find? (fun e => e.1 == acc)).map Prod.snd

/-- Embeds `UPDATE accounts SET balance=? WHERE account_no=?`. -/
def update_balance (s : BranchState) (acc : String) (new_bal : ℚ) : BranchState :=
  { s with accounts :=
      s.accounts.map (fun e => if e.1 == acc then (e.1, { e.2 with balance := new_bal }) else e) }

/-- Embeds `SELECT account_no, amount FROM pending_tx WHERE txid=? AND type=?` + `fetchone`. -/
def find_pending (s : BranchState) (txid : String) (typ : String) : Option PendingRow :=
  (s.pending_tx.find? (fun e => e.1 == txid && e.2.type == typ)).map Prod.snd

/-- Embeds `DELETE FROM pending_tx WHERE txid=?`. -/
def delete_pending (s : BranchState) (txid : String) : BranchState :=
  { s with pending_tx := s.pending_tx.filter (fun e => !(e.1 == txid)) }

/-- Embeds `DELETE FROM pending_tx WHERE txid=? AND type=?`. -/
def delete_pending_typed (s : BranchState) (txid : String) (typ : String) : BranchState :=
  { s with pending_tx :=
      s.pending_tx.filter (fun e => !(e.1 == txid && e.2.type == typ)) }

/-- Embeds `INSERT OR REPLACE INTO pending_tx ...`: the primary key is `txid`,
so any row with the same txid is replaced. -/
def insert_or_replace_pending (s : BranchState) (txid : String) (row : PendingRow) :
    BranchState :=
  { s with pending_tx :=
      s.pending_tx.filter (fun e => !(e.1 == txid)) ++ [(txid, row)] }

/-- Embeds `handle_deposit` (immediate, non-2PC).  `float` is attempted first,
then the account number is checked, mirroring the source order. -/
def handle_deposit (acc? : Option String) (amt? : Option AVal) (s : BranchState) :
    RStatus × BranchState :=
  match parseAmt amt? with
  | none => (.err "invalid amount", s)
  | some amt =>
    if !truthy acc? then (.err "missing account_no", s)
    else
      let acc := acc?.getD ""
      match get_account s acc with
      | none => (.err "account not found", s)
      | some acct => (.ok, update_balance s acc (acct.balance + amt))

/-- Embeds `handle_withdraw` (immediate, non-2PC). -/
def handle_withdraw (acc? : Option String) (amt? : Option AVal) (s : BranchState) :
    RStatus × BranchState :=
  match parseAmt amt? with
  | none => (.err "invalid amount", s)
  | some amt =>
    if !truthy acc? then (.err "missing account_no", s)
    else
      let acc := acc?.getD ""
      match get_account s acc with
      | none => (.err "account not found", s)
      | some acct =>
        if acct.balance < amt then (.err "insufficient funds", s)
        else (.ok, update_balance s acc (acct.balance - amt))

/-- Embeds `handle_create_account`.  The `balance` parameter is given already
parsed (a failed `float` there raises out of the handler and changes no
state, which is the same as the error branch for our purposes). -/
def handle_create_account (acc? : Option String) (name : String) (bal : ℚ)
    (s : BranchState) : RStatus × BranchState :=
  if !truthy acc? then (.err "missing account_no", s)
  else
    let acc := acc?.getD ""
    match get_account s acc with
    | some _ => (.err "account exists", s)
    | none => (.ok, { s with accounts := s.accounts ++ [(acc, ⟨name, bal⟩)] })

/-- Embeds `handle_prepare_withdraw`. -/
def handle_prepare_withdraw (txid? acc? : Option String) (amt? : Option AVal)
    (s : BranchState) : RStatus × BranchState :=
  match parseAmt amt? with
  | none => (.err "invalid amount", s)
  | some amt =>
    if !truthy txid? || !truthy acc? then (.err "missing txid/account_no", s)
    else
      let txid := txid?.getD ""
      let acc := acc?.getD ""
      match get_account s acc with
      | none => (.err "insufficient funds or account not found", s)
      | some acct =>
        if acct.balance < amt then (.err "insufficient funds or account not found", s)
        else (.ok, insert_or_replace_pending s txid ⟨acc, amt, "withdraw"⟩)

/-- Embeds `handle_commit_withdraw`. -/
def handle_commit_withdraw (txid? : Option String) (s : BranchState) :
    RStatus × BranchState :=
  if !truthy txid? then (.err "missing txid", s)
  else
    let txid := txid?.getD ""
    match find_pending s txid "withdraw" with
    | none => (.err "no such tx", s)
    | some row =>
      match get_account s row.account_no with
      | none => (.err "account not found", delete_pending s txid)
      | some acct =>
        if acct.balance < row.amount then
          (.err "insufficient funds at commit", delete_pending s txid)
        else
          (.ok, delete_pending (update_balance s row.account_no (acct.balance - row.amount)) txid)

/-- Embeds `handle_abort_withdraw`. -/
def handle_abort_withdraw (txid? : Option String) (s : BranchState) :
    RStatus × BranchState :=
  if !truthy txid? then (.err "missing txid", s)
  else (.ok, delete_pending_typed s (txid?.getD "") "withdraw")

/-- Embeds `handle_prepare_deposit`. -/
def handle_prepare_deposit (txid? acc? : Option String) (amt? : Option AVal)
    (s : BranchState) : RStatus × BranchState :=
  match parseAmt amt? with
  | none => (.err "invalid amount", s)
  | some amt =>
    if !truthy txid? || !truthy acc? then (.err "missing txid/account_no", s)
    else
      let txid := txid?.getD ""
      let acc := acc?.getD ""
      match get_account s acc with
      | none => (.err "destination account not found", s)
      | some _ => (.ok, insert_or_replace_pending s txid ⟨acc, amt, "deposit"⟩)

/-- Embeds `handle_commit_deposit`. -/
def handle_commit_deposit (txid? : Option String) (s : BranchState) :
    RStatus × BranchState :=
  if !truthy txid? then (.err "missing txid", s)
  else
    let txid := txid?.getD ""
    match find_pending s txid "deposit" with
    | none => (.err "no such tx", s)
    | some row =>
      match get_account s row.account_no with
      | none => (.err "account not found", delete_pending s txid)
      | some acct =>
        (.ok, delete_pending (update_balance s row.account_no (acct.balance + row.amount)) txid)

/-- Embeds `handle_abort_deposit`. -/
def handle_abort_deposit (txid? : Option String) (s : BranchState) :
    RStatus × BranchState :=
  if !truthy txid? then (.err "missing txid", s)
  else (.ok, delete_pending_typed s (txid?.getD "") "deposit")

/-- Embeds `local_transfer` (within one branch).  Both accounts are read before
either balance is written, exactly as in the source. -/
def local_transfer (src_account dest_account : String) (amount : ℚ)
    (s : BranchState) : RStatus × BranchState :=
  match get_account s src_account with
  | none => (.err "source account not found", s)
  | some src =>
    match get_account s dest_account with
    | none => (.err "destination account not found", s)
    | some dest =>
      if src.balance < amount then (.err "insufficient funds", s)
      else
        let new_src_bal := src.balance - amount
        let new_dest_bal := dest.balance + amount
        (.ok, update_balance (update_balance s src_account new_src_bal)
                dest_account new_dest_bal)

/-- Embeds `handle_local_transfer`: parameter validation wrapper. -/
def handle_local_transfer (src? dest? : Option String) (amt? : Option AVal)
    (s : BranchState) : RStatus × BranchState :=
  match parseAmt amt? with
  | none => (.err "invalid amount", s)
  | some amt =>
    if !(truthy src? && truthy dest?) then (.err "missing account numbers", s)
    else local_transfer (src?.getD "") (dest?.getD "") amt s

/-- A replicate message as read by `handle_replicate`:
`data.get("action")`, `params.get("account_no")`, `params.get("name")`,
`params.get("balance", 0.0)` (create) and `params.get("amount", 0.0)`
(deposit/withdraw).  The `float(...)` calls in this handler are NOT
wrapped in `try/except`, so the numeric fields are `AVal` values: a
`bad` value makes `float` raise out of the handler, and the connection
worker wraps the exception into a `status: error` response with no
state change — `handle_replicate` below models the handler together
with that wrapper on the raise path (the exception text, `str(e)`, is
abstracted to a fixed message). -/
structure ReplMsg where
  action : Option String
  account_no : Option String
  name : Option String
  balance : Option AVal
  amount : Option AVal
deriving Repr, DecidableEq

/-- Lookup by an optional key: `get_account(None)` matches no row
(`account_no = NULL` is never true in SQL). -/
def get_account? (s : BranchState) : Option String → Option Account
  | none => none
  | some a => get_account s a

/-- Embeds `handle_replicate` (composed with the connection worker on
the raise path, see `ReplMsg`): an unparseable numeric field raises out
of the handler before any write, surfacing as `status: error` with the
state unchanged.  A `create_account` message with a missing
`account_no` inserts a NULL-keyed row in the code; `account_no = NULL`
is never true in SQL, so that row is invisible to `get_account`,
`update_balance` and every other keyed operation modelled here (only
`list_accounts`/row counts, which no claim touches, could see it), and
the insert is modelled as a no-op. -/
def handle_replicate (m : ReplMsg) (s : BranchState) : RStatus × BranchState :=
  if m.action == some "create_account" then
    match parseAmt m.balance with
    | none => (.err "could not convert string to float", s)
    | some bal =>
      match m.account_no with
      | none => (.ok, s)
      | some acc =>
        match get_account s acc with
        | some _ => (.ok, s)
        | none =>
          (.ok, { s with accounts :=
            s.accounts ++ [(acc, ⟨m.name.getD "", bal⟩)] })
  else if m.action == some "deposit" then
    match parseAmt m.amount with
    | none => (.err "could not convert string to float", s)
    | some amt =>
      match get_account? s m.account_no with
      | none => (.ok, s)
      | some acct => (.ok, update_balance s (m.account_no.getD "") (acct.balance + amt))
  else if m.action == some "withdraw" then
    match parseAmt m.amount with
    | none => (.err "could not convert string to float", s)
    | some amt =>
      match get_account? s m.account_no with
      | none => (.ok, s)
      | some acct => (.ok, update_balance s (m.account_no.getD "") (acct.balance - amt))
  else (.ok, s)

/-- Embeds `recover_pending`: fetch every row, then delete each fetched row by
its txid. -/
def recover_pending (s : BranchState) : BranchState :=
  let rows := s.pending_tx
  { s with pending_tx :=
      rows.foldl (fun pt r => pt.filter (fun e => !(e.1 == r.1))) s.pending_tx }

/-- Rendering of a response dict used when a coordinator embeds
`str(resp)` into its own error message. -/
def rstr : RStatus → String
  | .ok => "(status ok)"
  | .err m => "(status error " ++ m ++ ")"

/-- Embeds `handle_inter_branch_transfer` (the 2PC coordinator on the source
branch).  The remote participant is outside this state; its two answers
are passed in as oracle values `remotePrep` and `remoteCommit`, and the
minted txid is a parameter. -/
def handle_inter_branch_transfer (src_acc : Option String) (amount? : Option AVal)
    (txid : String) (remotePrep remoteCommit : RStatus) (s : BranchState) :
    RStatus × BranchState :=
  match amount? with
  | some .bad => (.err "invalid amount", s)
  | none => (.err "invalid amount", s)
  | some (.num amount) =>
    if !truthy src_acc then (.err "missing parameters", s)
    else
    let prep_local := handle_prepare_withdraw (some txid) src_acc
        (some (.num amount)) s
    if prep_local.1 ≠ .ok then
      (.err ("local prepare failed: " ++ rstr prep_local.1), prep_local.2)
    else if remotePrep ≠ .ok then
      let aborted := handle_abort_withdraw (some txid) prep_local.2
      (.err ("destination prepare failed: " ++ rstr remotePrep), aborted.2)
    else
      let commit_local := handle_commit_withdraw (some txid) prep_local.2
      if commit_local.1 ≠ .ok then
        (.err ("local commit failed: " ++ rstr commit_local.1), commit_local.2)
      else if remoteCommit ≠ .ok then
        (.err ("remote commit failed: " ++ rstr remoteCommit), commit_local.2)
      else (.ok, commit_local.2)

/-- Sum of all balances on a branch. -/
def sumBal (s : BranchState) : ℚ :=
  (s.accounts.map (fun e => e.2.balance)).sum

/-- The entry updater used by `update_balance`. -/
def updEntry (k : String) (v : ℚ) (e : String × Account) : String × Account :=
  if e.1 == k then (e.1, { e.2 with balance := v }) else e

/-- Sum of the balances of an association list. -/
def sumL (l : List (String × Account)) : ℚ :=
  (l.map (fun e => e.2.balance)).sum

/-- One write operation of the branch API, as dispatched by the handler
table (the parameters a caller supplies, already parsed; see each
handler's definition). -/
inductive Op where
  | create (acc name : String) (bal : ℚ) : Op
  | deposit (acc : String) (amt : ℚ) : Op
  | withdraw (acc : String) (amt : ℚ) : Op
  | localTransfer (src dest : String) (amt : ℚ) : Op
  | prepareWithdraw (txid acc : String) (amt : ℚ) : Op
  | commitWithdraw (txid : String) : Op
  | abortWithdraw (txid : String) : Op
  | prepareDeposit (txid acc : String) (amt : ℚ) : Op
  | commitDeposit (txid : String) : Op
  | abortDeposit (txid : String) : Op
  | replicate (m : ReplMsg) : Op
deriving Repr

/-- State transition of one operation: the state component of the
corresponding handler. -/
def apply : Op → BranchState → BranchState
  | .create acc name bal, s => (handle_create_account (some acc) name bal s).2
  | .deposit acc amt, s => (handle_deposit (some acc) (some (.num amt)) s).2
  | .withdraw acc amt, s => (handle_withdraw (some acc) (some (.num amt)) s).2
  | .localTransfer src dest amt, s => (handle_local_transfer (some src) (some dest) (some (.num amt)) s).2
  | .prepareWithdraw txid acc amt, s =>
      (handle_prepare_withdraw (some txid) (some acc) (some (.num amt)) s).2
  | .commitWithdraw txid, s => (handle_commit_withdraw (some txid) s).2
  | .abortWithdraw txid, s => (handle_abort_withdraw (some txid) s).2
  | .prepareDeposit txid acc amt, s =>
      (handle_prepare_deposit (some txid) (some acc) (some (.num amt)) s).2
  | .commitDeposit txid, s => (handle_commit_deposit (some txid) s).2
  | .abortDeposit txid, s => (handle_abort_deposit (some txid) s).2
  | .replicate m, s => (handle_replicate m s).2

/-- Fold a sequence of operations over a state. -/
def applyOps (s : BranchState) (ops : List Op) : BranchState :=
  ops.foldl (fun t op => apply op t) s

/-- Operations with non-negative amounts, excluding replicated
withdrawals (which apply an unchecked debit on the replica). -/
def GoodOp : Op → Prop
  | .create _ _ bal => 0 ≤ bal
  | .deposit _ amt => 0 ≤ amt
  | .withdraw _ _ => True
  | .localTransfer _ _ amt => 0 ≤ amt
  | .prepareWithdraw _ _ _ => True
  | .commitWithdraw _ => True
  | .abortWithdraw _ => True
  | .prepareDeposit _ _ amt => 0 ≤ amt
  | .commitDeposit _ => True
  | .abortDeposit _ => True
  | .replicate m => m.action ≠ some "withdraw" ∧
      0 ≤ (parseAmt m.amount).getD 0 ∧ 0 ≤ (parseAmt m.balance).getD 0

/-- The preserved invariant: all balances non-negative, and every
journalled deposit row carries a non-negative amount. -/
def BankInv (s : BranchState) : Prop :=
  (∀ e ∈ s.accounts, 0 ≤ e.2.balance) ∧
  (∀ e ∈ s.pending_tx, e.2.type = "deposit" → 0 ≤ e.2.amount)

/-! ### Helper lemmas -/

theorem get_account_mem {s : BranchState} {acc : String} {a : Account}
    (h : get_account s acc = some a) : (acc, a) ∈ s.accounts := by
  unfold get_account at h
  cases hf : s.accounts.find? (fun e => e.1 == acc) with
  | none => rw [hf] at h; simp at h
  | some e =>
    rw [hf] at h
    simp at h
    have hmem := List.mem_of_find?_eq_some hf
    have hpred := List.find?_some hf
    obtain ⟨k, v⟩ := e
    simp at hpred h
    rw [← hpred, ← h]
    exact hmem

theorem balances_update_balance {s : BranchState} {v : ℚ}
    (h : ∀ e ∈ s.accounts, 0 ≤ e.2.balance) (hv : 0 ≤ v) (acc : String) :
    ∀ e ∈ (update_balance s acc v).accounts, 0 ≤ e.2.balance := by
  intro e he
  unfold update_balance at he
  simp only [List.mem_map] at he
  obtain ⟨y, hy, hfy⟩ := he
  by_cases hk : (y.1 == acc) = true
  · simp [hk] at hfy
    rw [← hfy]
    exact hv
  · simp [hk] at hfy
    rw [← hfy]
    exact h y hy

theorem updEntry_fst (k : String) (v : ℚ) (e : String × Account) :
    (updEntry k v e).1 = e.1 := by
  unfold updEntry
  by_cases h : (e.1 == k) = true <;> simp [h]

theorem update_balance_accounts (s : BranchState) (k : String) (v : ℚ) :
    (update_balance s k v).accounts = s.accounts.map (updEntry k v) := rfl

theorem find?_map_updEntry (l : List (String × Account)) (k k' : String) (v : ℚ) :
    (l.map (updEntry k v)).find? (fun e => e.1 == k') =
      (l.find? (fun e => e.1 == k')).map (updEntry k v) := by
  induction l with
  | nil => rfl
  | cons e l ih =>
    simp only [List.map_cons, List.find?_cons]
    rw [updEntry_fst]
    by_cases hp : (e.1 == k') = true
    · simp [hp]
    · simp only [hp, Bool.false_eq_true, if_false, ih, hp]

theorem get_account_update_self (s : BranchState) (k : String) (v : ℚ) :
    get_account (update_balance s k v) k =
      (get_account s k).map (fun a => { a with balance := v }) := by
  unfold get_account
  rw [update_balance_accounts, find?_map_updEntry]
  cases hf : s.accounts.find? (fun e => e.1 == k) with
  | none => rfl
  | some e =>
    have hpred : e.1 = k := by simpa using List.find?_some hf
    unfold updEntry
    simp [hpred]

theorem get_account_update_ne (s : BranchState) {k k' : String} (v : ℚ)
    (hne : k' ≠ k) :
    get_account (update_balance s k v) k' = get_account s k' := by
  unfold get_account
  rw [update_balance_accounts, find?_map_updEntry]
  cases hf : s.accounts.find? (fun e => e.1 == k') with
  | none => rfl
  | some e =>
    have hpred : e.1 = k' := by simpa using List.find?_some hf
    unfold updEntry
    have hf2 : e.1 ≠ k := by
      rw [hpred]
      exact hne
    simp [hf2]

theorem map_updEntry_not_mem (l : List (String × Account)) (k : String) (v : ℚ)
    (h : k ∉ l.map Prod.fst) : l.map (updEntry k v) = l := by
  induction l with
  | nil => rfl
  | cons e l ih =>
    simp only [List.map_cons, List.mem_cons] at h
    push_neg at h
    rw [List.map_cons, ih h.2]
    unfold updEntry
    have : (e.1 == k) = false := by
      simp
      exact fun hh => h.1 hh.symm
    simp [this]

theorem sumBal_eq_sumL (s : BranchState) : sumBal s = sumL s.accounts := rfl

theorem sumL_map_updEntry (l : List (String × Account)) (k : String)
    (e : String × Account) (v : ℚ)
    (hnd : (l.map Prod.fst).Nodup) (hf : l.find? (fun x => x.1 == k) = some e) :
    sumL (l.map (updEntry k v)) = sumL l - e.2.balance + v := by
  induction l with
  | nil => simp at hf
  | cons x xs ih =>
    rw [List.map_cons] at hnd
    rw [List.nodup_cons] at hnd
    by_cases hx : (x.1 == k) = true
    · rw [List.find?_cons_of_pos xs hx] at hf
      have hex : x = e := by simpa using hf
      have hxk : x.1 = k := by simpa using hx
      have hnk : k ∉ xs.map Prod.fst := by
        rw [← hxk]
        exact hnd.1
      rw [List.map_cons, map_updEntry_not_mem xs k v hnk]
      have hux : updEntry k v x = (x.1, { x.2 with balance := v }) := by
        unfold updEntry
        rw [if_pos hx]
      rw [hux, ← hex]
      simp [sumL]
      ring
    · rw [List.find?_cons_of_neg xs hx] at hf
      have hrec := ih hnd.2 hf
      have hux : updEntry k v x = x := by
        unfold updEntry
        rw [if_neg hx]
      rw [List.map_cons, hux]
      simp only [sumL, List.map_cons, List.sum_cons]
      have hrec2 : ((xs.map (updEntry k v)).map fun e => e.2.balance).sum =
          (xs.map fun e => e.2.balance).sum - e.2.balance + v := hrec
      rw [hrec2]
      ring

theorem sumBal_update {s : BranchState} {k : String} {a : Account}
    (hnd : (s.accounts.map Prod.fst).Nodup) (h : get_account s k = some a) (v : ℚ) :
    sumBal (update_balance s k v) = sumBal s - a.balance + v := by
  unfold get_account at h
  cases hf : s.accounts.find? (fun x => x.1 == k) with
  | none => rw [hf] at h; simp at h
  | some e =>
    rw [hf] at h
    simp only [Option.map] at h
    have hae : e.2 = a := by simpa using h
    rw [sumBal_eq_sumL, sumBal_eq_sumL, update_balance_accounts,
        sumL_map_updEntry s.accounts k e v hnd hf, hae]

theorem foldl_delete_all (l : List (String × PendingRow)) :
    ∀ acc : List (String × PendingRow), (∀ x ∈ acc, ∃ r ∈ l, x.1 = r.1) →
      l.foldl (fun pt r => pt.filter (fun e => !(e.1 == r.1))) acc = [] := by
  induction l with
  | nil =>
    intro acc h
    have : acc = [] := by
      apply List.eq_nil_iff_forall_not_mem.mpr
      intro x hx
      obtain ⟨r, hr, _⟩ := h x hx
      exact absurd hr (List.not_mem_nil r)
    simp [this]
  | cons r rs ih =>
    intro acc h
    rw [List.foldl_cons]
    apply ih
    intro x hx
    rw [List.mem_filter] at hx
    obtain ⟨hxa, hxr⟩ := hx
    have hxr2 : x.1 ≠ r.1 := by simpa using hxr
    obtain ⟨r2, hr2, hx2⟩ := h x hxa
    rcases List.mem_cons.mp hr2 with heq | hmem
    · exact absurd (heq ▸ hx2) hxr2
    · exact ⟨r2, hmem, hx2⟩

/-! ### Claim theorems -/

/-- C9.  After `recover_pending` the `pending_tx` table is empty and no
account balance is modified: recovery only deletes journal rows. -/
theorem C9_recover_pending_empties_journal (s : BranchState) :
    (recover_pending s).pending_tx = [] ∧ (recover_pending s).accounts = s.accounts := by
  constructor
  · show s.pending_tx.foldl (fun pt r => pt.filter (fun e => !(e.1 == r.1)))
        s.pending_tx = []
    exact foldl_delete_all s.pending_tx s.pending_tx
      (fun x hx => ⟨x, hx, rfl⟩)
  · rfl

/-- C2 counterexample.  A deposit with the negative amount `-5` on an
existing account is NOT rejected as `invalid amount`: it returns `ok`
and changes the balance from `100` to `95`, refuting the claim that a
negative amount yields `{status: error, error: "invalid amount"}` with
balances unchanged. -/
theorem C2_counterexample :
    (handle_deposit (some "1001") (some (.num (-5)))
        ⟨[("1001", ⟨"u", 100⟩)], []⟩).1 = .ok ∧
    (handle_deposit (some "1001") (some (.num (-5)))
        ⟨[("1001", ⟨"u", 100⟩)], []⟩).2 =
      ⟨[("1001", ⟨"u", 95⟩)], []⟩ := by
  constructor
  · rfl
  · show (⟨[("1001", ⟨"u", (100:ℚ) + (-5)⟩)], []⟩ : BranchState) =
      ⟨[("1001", ⟨"u", 95⟩)], []⟩
    norm_num

/-- C2 (amended).  `deposit` and `withdraw` return
`{status: error, error: "invalid amount"}` with all balances unchanged
exactly when the amount parameter fails to parse as a float
(`float(...)` raises); negative amounts parse fine and are applied. -/
theorem C2_amended_only_parse_failures_rejected (acc? : Option String)
    (s : BranchState) :
    handle_deposit acc? (some .bad) s = (.err "invalid amount", s) ∧
    handle_withdraw acc? (some .bad) s = (.err "invalid amount", s) := by
  constructor <;> rfl

/-- C5.  For an existing account, withdrawing exactly the current balance
succeeds and leaves balance `0`; withdrawing any strictly larger amount
returns `insufficient funds` and leaves the whole state unchanged. -/
theorem C5_withdraw_boundary {s : BranchState} {acc : String} {acct : Account}
    (hne : acc ≠ "") (h : get_account s acc = some acct) :
    (handle_withdraw (some acc) (some (.num acct.balance)) s).1 = .ok ∧
    get_account (handle_withdraw (some acc) (some (.num acct.balance)) s).2 acc =
      some { acct with balance := 0 } ∧
    ∀ amt : ℚ, acct.balance < amt →
      handle_withdraw (some acc) (some (.num amt)) s = (.err "insufficient funds", s) := by
  have ht : truthy (some acc) = true := by simp [truthy, hne]
  refine ⟨?_, ?_, ?_⟩
  · simp [handle_withdraw, parseAmt, ht, h]
  · simp [handle_withdraw, parseAmt, ht, h, get_account_update_self]
  · intro amt hlt
    simp [handle_withdraw, parseAmt, ht, h, hlt]

/-- Witness for C5 at a concrete state. -/
theorem C5_withdraw_boundary_witness :
    ("1001" : String) ≠ "" ∧
    get_account ⟨[("1001", ⟨"u", 100⟩)], []⟩ "1001" = some ⟨"u", 100⟩ ∧
    ((handle_withdraw (some "1001") (some (.num (Account.mk "u" 100).balance))
        ⟨[("1001", ⟨"u", 100⟩)], []⟩).1 = .ok ∧
     get_account (handle_withdraw (some "1001")
        (some (.num (Account.mk "u" 100).balance))
        ⟨[("1001", ⟨"u", 100⟩)], []⟩).2 "1001" =
      some { Account.mk "u" 100 with balance := 0 } ∧
     ∀ amt : ℚ, (Account.mk "u" 100).balance < amt →
      handle_withdraw (some "1001") (some (.num amt))
          ⟨[("1001", ⟨"u", 100⟩)], []⟩ =
        (.err "insufficient funds", ⟨[("1001", ⟨"u", 100⟩)], []⟩)) :=
  ⟨by decide, by rfl, C5_withdraw_boundary (by decide) (by rfl)⟩

/-- C7.  `abort_withdraw` and `abort_deposit` always answer `ok` for a
present txid, and a second abort with the same txid leaves the state of
the first completely unchanged (hence so does every later call). -/
theorem C7_abort_idempotent (t : String) (ht : t ≠ "") (s : BranchState) :
    (handle_abort_withdraw (some t) s).1 = .ok ∧
    handle_abort_withdraw (some t) (handle_abort_withdraw (some t) s).2 =
      (.ok, (handle_abort_withdraw (some t) s).2) ∧
    (handle_abort_deposit (some t) s).1 = .ok ∧
    handle_abort_deposit (some t) (handle_abort_deposit (some t) s).2 =
      (.ok, (handle_abort_deposit (some t) s).2) := by
  have htt : truthy (some t) = true := by simp [truthy, ht]
  refine ⟨?_, ?_, ?_, ?_⟩
  · simp [handle_abort_withdraw, htt]
  · simp [handle_abort_withdraw, htt, delete_pending_typed, List.filter_filter]
  · simp [handle_abort_deposit, htt]
  · simp [handle_abort_deposit, htt, delete_pending_typed, List.filter_filter]

/-- Witness for C7 at a concrete state. -/
theorem C7_abort_idempotent_witness :
    ("t1" : String) ≠ "" ∧
    ((handle_abort_withdraw (some "t1")
        ⟨[], [("t1", ⟨"1001", 5, "withdraw"⟩)]⟩).1 = .ok ∧
     handle_abort_withdraw (some "t1") (handle_abort_withdraw (some "t1")
        ⟨[], [("t1", ⟨"1001", 5, "withdraw"⟩)]⟩).2 =
      (.ok, (handle_abort_withdraw (some "t1")
        ⟨[], [("t1", ⟨"1001", 5, "withdraw"⟩)]⟩).2) ∧
     (handle_abort_deposit (some "t1")
        ⟨[], [("t1", ⟨"1001", 5, "withdraw"⟩)]⟩).1 = .ok ∧
     handle_abort_deposit (some "t1") (handle_abort_deposit (some "t1")
        ⟨[], [("t1", ⟨"1001", 5, "withdraw"⟩)]⟩).2 =
      (.ok, (handle_abort_deposit (some "t1")
        ⟨[], [("t1", ⟨"1001", 5, "withdraw"⟩)]⟩).2)) :=
  ⟨by decide, C7_abort_idempotent "t1" (by decide) _⟩

theorem map_fst_update (s : BranchState) (k : String) (v : ℚ) :
    (update_balance s k v).accounts.map Prod.fst = s.accounts.map Prod.fst := by
  rw [update_balance_accounts, List.map_map]
  apply List.map_congr_left
  intro e _
  exact updEntry_fst k v e

/-- C3 counterexample.  A successful `local_transfer` with
`src == dest` is NOT conservative: on a branch whose only account holds
`10`, transferring `5` from the account to itself succeeds and leaves
the sum of balances at `15` (the second balance write overwrites the
first), refuting conservation in the `src == dest` case. -/
theorem C3_counterexample :
    (local_transfer "1001" "1001" 5 ⟨[("1001", ⟨"u", 10⟩)], []⟩).1 = .ok ∧
    sumBal (local_transfer "1001" "1001" 5 ⟨[("1001", ⟨"u", 10⟩)], []⟩).2 = 15 ∧
    sumBal ⟨[("1001", ⟨"u", 10⟩)], []⟩ = 10 := by
  refine ⟨rfl, ?_, ?_⟩
  · show sumBal ⟨[("1001", ⟨"u", (10:ℚ) + 5⟩)], []⟩ = 15
    simp [sumBal]
    norm_num
  · show sumBal ⟨[("1001", ⟨"u", (10:ℚ)⟩)], []⟩ = 10
    simp [sumBal]

/-- C3 (amended).  For every successful `local_transfer(src, dest, a)`
with `src ≠ dest` (and the account table keyed uniquely, as the
`account_no` primary key guarantees), the sum of all balances on the
branch is unchanged.  With `src = dest` the sum instead grows by `a`
(see the counterexample). -/
theorem C3_amended_local_transfer_conserves_sum
    (src dest : String) (amt : ℚ) (s : BranchState)
    (hnd : (s.accounts.map Prod.fst).Nodup) (hne : src ≠ dest)
    (hok : (local_transfer src dest amt s).1 = .ok) :
    sumBal (local_transfer src dest amt s).2 = sumBal s := by
  unfold local_transfer at hok ⊢
  cases hs : get_account s src with
  | none =>
    simp only [hs] at hok
    exact RStatus.noConfusion hok
  | some srcA =>
    cases hd : get_account s dest with
    | none =>
      simp only [hs, hd] at hok
      exact RStatus.noConfusion hok
    | some destA =>
      simp only [hs, hd] at hok ⊢
      by_cases hlt : srcA.balance < amt
      · rw [if_pos hlt] at hok; simp at hok
      · rw [if_neg hlt]
        show sumBal (update_balance (update_balance s src (srcA.balance - amt))
          dest (destA.balance + amt)) = sumBal s
        have h1 := sumBal_update hnd hs (srcA.balance - amt)
        have hd2 : get_account (update_balance s src (srcA.balance - amt)) dest =
            some destA := by
          rw [get_account_update_ne _ _ (Ne.symm hne)]
          exact hd
        have hnd2 : ((update_balance s src (srcA.balance - amt)).accounts.map
            Prod.fst).Nodup := by
          rw [map_fst_update]
          exact hnd
        have h2 := sumBal_update hnd2 hd2 (destA.balance + amt)
        rw [h2, h1]
        ring

/-- Witness for the amended C3 at a concrete two-account state. -/
theorem C3_amended_local_transfer_conserves_sum_witness :
    (((⟨[("a", ⟨"", 10⟩), ("b", ⟨"", 5⟩)], []⟩ : BranchState)).accounts.map
        Prod.fst).Nodup ∧
    ("a" : String) ≠ "b" ∧
    (local_transfer "a" "b" 3 ⟨[("a", ⟨"", 10⟩), ("b", ⟨"", 5⟩)], []⟩).1 = .ok ∧
    sumBal (local_transfer "a" "b" 3 ⟨[("a", ⟨"", 10⟩), ("b", ⟨"", 5⟩)], []⟩).2 =
      sumBal ⟨[("a", ⟨"", 10⟩), ("b", ⟨"", 5⟩)], []⟩ :=
  ⟨by decide, by decide, by rfl,
    C3_amended_local_transfer_conserves_sum "a" "b" 3 _ (by decide) (by decide) (by rfl)⟩

theorem find_pending_delete_self (s : BranchState) (t typ : String) :
    find_pending (delete_pending s t) t typ = none := by
  unfold find_pending delete_pending
  simp only [Option.map_eq_none']
  rw [List.find?_eq_none]
  intro x hx
  rw [List.mem_filter] at hx
  have hxt : ¬ x.1 = t := by simpa using hx.2
  simp [hxt]

theorem get_account_delete_pending (s : BranchState) (t : String) (k : String) :
    get_account (delete_pending s t) k = get_account s k := rfl

/-- C4.  Case analysis of `commit_withdraw` on a txid `t`: no matching
pending row yields `no such tx` with the state untouched; a matching row
whose account exists with sufficient balance is debited by the row's
amount and the row deleted, answering `ok`; a matching row whose account
exists with insufficient balance deletes the row, changes no balance,
and answers `insufficient funds at commit`. -/
theorem C4_commit_withdraw_cases (t : String) (ht : t ≠ "") (s : BranchState) :
    (find_pending s t "withdraw" = none →
      handle_commit_withdraw (some t) s = (.err "no such tx", s)) ∧
    (∀ row acct, find_pending s t "withdraw" = some row →
      get_account s row.account_no = some acct →
      ¬ acct.balance < row.amount →
      (handle_commit_withdraw (some t) s).1 = .ok ∧
      get_account (handle_commit_withdraw (some t) s).2 row.account_no =
        some { acct with balance := acct.balance - row.amount } ∧
      find_pending (handle_commit_withdraw (some t) s).2 t "withdraw" = none) ∧
    (∀ row acct, find_pending s t "withdraw" = some row →
      get_account s row.account_no = some acct →
      acct.balance < row.amount →
      (handle_commit_withdraw (some t) s).1 = .err "insufficient funds at commit" ∧
      (handle_commit_withdraw (some t) s).2.accounts = s.accounts ∧
      find_pending (handle_commit_withdraw (some t) s).2 t "withdraw" = none) := by
  have htt : truthy (some t) = true := by simp [truthy, ht]
  refine ⟨?_, ?_, ?_⟩
  · intro hnone
    unfold handle_commit_withdraw
    simp only [htt, Bool.not_true, Bool.false_eq_true, if_false, Option.getD, hnone]
  · intro row acct hrow hacct hge
    unfold handle_commit_withdraw
    simp only [htt, Bool.not_true, Bool.false_eq_true, if_false, Option.getD, hrow, hacct]
    rw [if_neg hge]
    refine ⟨rfl, ?_, ?_⟩
    · rw [get_account_delete_pending, get_account_update_self, hacct]
      rfl
    · exact find_pending_delete_self _ t "withdraw"
  · intro row acct hrow hacct hlt
    unfold handle_commit_withdraw
    simp only [htt, Bool.not_true, Bool.false_eq_true, if_false, Option.getD, hrow, hacct]
    rw [if_pos hlt]
    exact ⟨rfl, rfl, find_pending_delete_self _ t "withdraw"⟩

/-- Witness for C4 at a concrete state holding one pending withdraw row. -/
theorem C4_commit_withdraw_cases_witness :
    ("t1" : String) ≠ "" ∧
    ((find_pending ⟨[("a", ⟨"", 10⟩)], [("t1", ⟨"a", 4, "withdraw"⟩)]⟩ "t1" "withdraw" = none →
      handle_commit_withdraw (some "t1") ⟨[("a", ⟨"", 10⟩)], [("t1", ⟨"a", 4, "withdraw"⟩)]⟩ =
        (.err "no such tx", ⟨[("a", ⟨"", 10⟩)], [("t1", ⟨"a", 4, "withdraw"⟩)]⟩)) ∧
     (∀ row acct,
      find_pending ⟨[("a", ⟨"", 10⟩)], [("t1", ⟨"a", 4, "withdraw"⟩)]⟩ "t1" "withdraw" = some row →
      get_account ⟨[("a", ⟨"", 10⟩)], [("t1", ⟨"a", 4, "withdraw"⟩)]⟩ row.account_no = some acct →
      ¬ acct.balance < row.amount →
      (handle_commit_withdraw (some "t1") ⟨[("a", ⟨"", 10⟩)], [("t1", ⟨"a", 4, "withdraw"⟩)]⟩).1 = .ok ∧
      get_account (handle_commit_withdraw (some "t1")
          ⟨[("a", ⟨"", 10⟩)], [("t1", ⟨"a", 4, "withdraw"⟩)]⟩).2 row.account_no =
        some { acct with balance := acct.balance - row.amount } ∧
      find_pending (handle_commit_withdraw (some "t1")
          ⟨[("a", ⟨"", 10⟩)], [("t1", ⟨"a", 4, "withdraw"⟩)]⟩).2 "t1" "withdraw" = none) ∧
     (∀ row acct,
      find_pending ⟨[("a", ⟨"", 10⟩)], [("t1", ⟨"a", 4, "withdraw"⟩)]⟩ "t1" "withdraw" = some row →
      get_account ⟨[("a", ⟨"", 10⟩)], [("t1", ⟨"a", 4, "withdraw"⟩)]⟩ row.account_no = some acct →
      acct.balance < row.amount →
      (handle_commit_withdraw (some "t1")
          ⟨[("a", ⟨"", 10⟩)], [("t1", ⟨"a", 4, "withdraw"⟩)]⟩).1 = .err "insufficient funds at commit" ∧
      (handle_commit_withdraw (some "t1")
          ⟨[("a", ⟨"", 10⟩)], [("t1", ⟨"a", 4, "withdraw"⟩)]⟩).2.accounts =
        (⟨[("a", ⟨"", 10⟩)], [("t1", ⟨"a", 4, "withdraw"⟩)]⟩ : BranchState).accounts ∧
      find_pending (handle_commit_withdraw (some "t1")
          ⟨[("a", ⟨"", 10⟩)], [("t1", ⟨"a", 4, "withdraw"⟩)]⟩).2 "t1" "withdraw" = none)) :=
  ⟨by decide, C4_commit_withdraw_cases "t1" (by decide) _⟩

theorem roundtrip_pending (s : BranchState) (t : String) (row : PendingRow)
    (typ : String) (hty : row.type = typ) (hfresh : ∀ e ∈ s.pending_tx, e.1 ≠ t) :
    delete_pending_typed (insert_or_replace_pending s t row) t typ = s := by
  unfold delete_pending_typed insert_or_replace_pending
  simp only
  rw [List.filter_append]
  have h1 : s.pending_tx.filter (fun e => !(e.1 == t)) = s.pending_tx :=
    List.filter_eq_self.mpr (by intro a ha; simpa using hfresh a ha)
  rw [h1]
  have h2 : s.pending_tx.filter (fun e => !(e.1 == t && e.2.type == typ)) =
      s.pending_tx :=
    List.filter_eq_self.mpr (by
      intro a ha
      have := hfresh a ha
      simp [this])
  rw [h2]
  have h3 : ([(t, row)] : List (String × PendingRow)).filter
      (fun e => !(e.1 == t && e.2.type == typ)) = [] := by
    simp [hty]
  rw [h3, List.append_nil]

/-- C6.  From a state with no pending row for txid `t`, a successful
`prepare_withdraw(t, acc, amt)` changes no account balance and a
subsequent `abort_withdraw(t)` answers `ok` and restores the state
exactly; the same round trip holds for `prepare_deposit` followed by
`abort_deposit`. -/
theorem C6_prepare_abort_roundtrip (t acc : String) (amt : ℚ) (s : BranchState)
    (hfresh : ∀ e ∈ s.pending_tx, e.1 ≠ t) :
    ((handle_prepare_withdraw (some t) (some acc) (some (.num amt)) s).1 = .ok →
      (handle_prepare_withdraw (some t) (some acc) (some (.num amt)) s).2.accounts =
        s.accounts ∧
      handle_abort_withdraw (some t)
        (handle_prepare_withdraw (some t) (some acc) (some (.num amt)) s).2 =
        (.ok, s)) ∧
    ((handle_prepare_deposit (some t) (some acc) (some (.num amt)) s).1 = .ok →
      (handle_prepare_deposit (some t) (some acc) (some (.num amt)) s).2.accounts =
        s.accounts ∧
      handle_abort_deposit (some t)
        (handle_prepare_deposit (some t) (some acc) (some (.num amt)) s).2 =
        (.ok, s)) := by
  constructor
  · intro hw
    unfold handle_prepare_withdraw at hw ⊢
    simp only [parseAmt] at hw ⊢
    by_cases hcond : (!truthy (some t) || !truthy (some acc)) = true
    · rw [if_pos hcond] at hw
      exact RStatus.noConfusion hw
    · rw [if_neg hcond] at hw ⊢
      obtain ⟨htt, hta⟩ : truthy (some t) = true ∧ truthy (some acc) = true := by
        simpa using hcond
      simp only [Option.getD_some] at hw ⊢
      cases hga : get_account s acc with
      | none =>
        simp only [hga] at hw
        exact RStatus.noConfusion hw
      | some acct =>
        simp only [hga] at hw ⊢
        by_cases hlt : acct.balance < amt
        · rw [if_pos hlt] at hw
          exact RStatus.noConfusion hw
        · rw [if_neg hlt]
          refine ⟨rfl, ?_⟩
          unfold handle_abort_withdraw
          simp only [htt, Bool.not_true, Bool.false_eq_true, if_false,
            Option.getD_some]
          rw [roundtrip_pending s t _ "withdraw" rfl hfresh]
  · intro hd
    unfold handle_prepare_deposit at hd ⊢
    simp only [parseAmt] at hd ⊢
    by_cases hcond : (!truthy (some t) || !truthy (some acc)) = true
    · rw [if_pos hcond] at hd
      exact RStatus.noConfusion hd
    · rw [if_neg hcond] at hd ⊢
      obtain ⟨htt, hta⟩ : truthy (some t) = true ∧ truthy (some acc) = true := by
        simpa using hcond
      simp only [Option.getD_some] at hd ⊢
      cases hga : get_account s acc with
      | none =>
        simp only [hga] at hd
        exact RStatus.noConfusion hd
      | some acct =>
        simp only [hga] at hd ⊢
        refine ⟨rfl, ?_⟩
        unfold handle_abort_deposit
        simp only [htt, Bool.not_true, Bool.false_eq_true, if_false,
          Option.getD_some]
        rw [roundtrip_pending s t _ "deposit" rfl hfresh]

/-- Witness for C6 at a concrete state. -/
theorem C6_prepare_abort_roundtrip_witness :
    (∀ e ∈ (⟨[("a", ⟨"", 10⟩)], []⟩ : BranchState).pending_tx, e.1 ≠ "t1") ∧
    (((handle_prepare_withdraw (some "t1") (some "a") (some (.num 4))
          ⟨[("a", ⟨"", 10⟩)], []⟩).1 = .ok →
      (handle_prepare_withdraw (some "t1") (some "a") (some (.num 4))
          ⟨[("a", ⟨"", 10⟩)], []⟩).2.accounts =
        (⟨[("a", ⟨"", 10⟩)], []⟩ : BranchState).accounts ∧
      handle_abort_withdraw (some "t1")
        (handle_prepare_withdraw (some "t1") (some "a") (some (.num 4))
          ⟨[("a", ⟨"", 10⟩)], []⟩).2 = (.ok, ⟨[("a", ⟨"", 10⟩)], []⟩)) ∧
     ((handle_prepare_deposit (some "t1") (some "a") (some (.num 4))
          ⟨[("a", ⟨"", 10⟩)], []⟩).1 = .ok →
      (handle_prepare_deposit (some "t1") (some "a") (some (.num 4))
          ⟨[("a", ⟨"", 10⟩)], []⟩).2.accounts =
        (⟨[("a", ⟨"", 10⟩)], []⟩ : BranchState).accounts ∧
      handle_abort_deposit (some "t1")
        (handle_prepare_deposit (some "t1") (some "a") (some (.num 4))
          ⟨[("a", ⟨"", 10⟩)], []⟩).2 = (.ok, ⟨[("a", ⟨"", 10⟩)], []⟩))) :=
  ⟨by simp, C6_prepare_abort_roundtrip "t1" "a" 4 _ (by simp)⟩

theorem prepare_withdraw_ok_char (t acc : String) (amt : ℚ) (s : BranchState)
    (h : (handle_prepare_withdraw (some t) (some acc) (some (.num amt)) s).1 = .ok) :
    truthy (some t) = true ∧ truthy (some acc) = true ∧
    handle_prepare_withdraw (some t) (some acc) (some (.num amt)) s =
      (.ok, insert_or_replace_pending s t ⟨acc, amt, "withdraw"⟩) := by
  unfold handle_prepare_withdraw at h ⊢
  simp only [parseAmt] at h ⊢
  by_cases hcond : (!truthy (some t) || !truthy (some acc)) = true
  · rw [if_pos hcond] at h
    exact RStatus.noConfusion h
  · obtain ⟨htt, hta⟩ : truthy (some t) = true ∧ truthy (some acc) = true := by
      simpa using hcond
    rw [if_neg hcond] at h ⊢
    simp only [Option.getD_some] at h ⊢
    cases hga : get_account s acc with
    | none =>
      simp only [hga] at h
      exact RStatus.noConfusion h
    | some acct =>
      simp only [hga] at h ⊢
      by_cases hlt : acct.balance < amt
      · rw [if_pos hlt] at h
        exact RStatus.noConfusion h
      · rw [if_neg hlt]
        exact ⟨htt, hta, rfl⟩

theorem pending_after_abort_insert (s : BranchState) (txid : String)
    (row : PendingRow) (typ : String) (hty : row.type = typ) :
    ∀ e ∈ (delete_pending_typed (insert_or_replace_pending s txid row)
        txid typ).pending_tx, e.1 ≠ txid := by
  intro e he
  unfold delete_pending_typed insert_or_replace_pending at he
  simp only [List.mem_filter] at he
  obtain ⟨hmem, hg⟩ := he
  rcases List.mem_append.mp hmem with hl | hr
  · rw [List.mem_filter] at hl
    simpa using hl.2
  · have : e = (txid, row) := by simpa using hr
    rw [this] at hg
    simp [hty] at hg

/-- C8.  If the local `prepare_withdraw` for the minted txid succeeds but
the remote `prepare_deposit` answers anything but `ok`, the coordinator
aborts the local prepare and returns an error beginning with
`destination prepare failed`, leaving every account balance unchanged
and no `pending_tx` row for the txid. -/
theorem C8_dest_prepare_failed_compensation (src : String) (amt : ℚ)
    (txid : String) (remotePrep remoteCommit : RStatus) (s : BranchState)
    (hprep : (handle_prepare_withdraw (some txid) (some src)
        (some (.num amt)) s).1 = .ok)
    (hfail : remotePrep ≠ .ok) :
    (∃ rest, (handle_inter_branch_transfer (some src) (some (.num amt)) txid
        remotePrep remoteCommit s).1 = .err ("destination prepare failed" ++ rest)) ∧
    (handle_inter_branch_transfer (some src) (some (.num amt)) txid
        remotePrep remoteCommit s).2.accounts = s.accounts ∧
    ∀ e ∈ (handle_inter_branch_transfer (some src) (some (.num amt)) txid
        remotePrep remoteCommit s).2.pending_tx, e.1 ≠ txid := by
  obtain ⟨htt, hts, hchar⟩ := prepare_withdraw_ok_char txid src amt s hprep
  unfold handle_inter_branch_transfer
  simp only [hts, Bool.not_true, Bool.false_eq_true, if_false, hchar]
  rw [if_neg (show ¬ (RStatus.ok, insert_or_replace_pending s txid
      ⟨src, amt, "withdraw"⟩).1 ≠ RStatus.ok from fun hne => hne rfl)]
  rw [if_pos hfail]
  unfold handle_abort_withdraw
  simp only [htt, Bool.not_true, Bool.false_eq_true, if_false, Option.getD_some]
  refine ⟨⟨": " ++ rstr remotePrep, ?_⟩, rfl, ?_⟩
  · rw [← String.append_assoc]
    rfl
  · exact pending_after_abort_insert s txid _ "withdraw" rfl

/-- Witness for C8 at a concrete state with a failing remote prepare. -/
theorem C8_dest_prepare_failed_compensation_witness :
    (handle_prepare_withdraw (some "t1") (some "a") (some (.num 4))
        ⟨[("a", ⟨"", 10⟩)], []⟩).1 = .ok ∧
    (RStatus.err "no response") ≠ .ok ∧
    ((∃ rest, (handle_inter_branch_transfer (some "a") (some (.num 4)) "t1"
        (.err "no response") .ok ⟨[("a", ⟨"", 10⟩)], []⟩).1 =
          .err ("destination prepare failed" ++ rest)) ∧
     (handle_inter_branch_transfer (some "a") (some (.num 4)) "t1"
        (.err "no response") .ok ⟨[("a", ⟨"", 10⟩)], []⟩).2.accounts =
       (⟨[("a", ⟨"", 10⟩)], []⟩ : BranchState).accounts ∧
     ∀ e ∈ (handle_inter_branch_transfer (some "a") (some (.num 4)) "t1"
        (.err "no response") .ok ⟨[("a", ⟨"", 10⟩)], []⟩).2.pending_tx,
       e.1 ≠ "t1") :=
  ⟨by rfl, by decide,
    C8_dest_prepare_failed_compensation "a" 4 "t1" (.err "no response") .ok _
      (by rfl) (by decide)⟩

/-- C10 counterexample.  `handle_replicate` does NOT answer `ok` for
every input: a deposit message whose amount is a non-numeric string
makes the unguarded `float(...)` raise, and the sender receives a
`status: error` response (with no state change), refuting the claim
that a replicate call never reports failure. -/
theorem C10_counterexample :
    (handle_replicate ⟨some "deposit", some "a", none, none, some .bad⟩
        ⟨[("a", ⟨"", 1⟩)], []⟩).1 =
      .err "could not convert string to float" ∧
    (handle_replicate ⟨some "deposit", some "a", none, none, some .bad⟩
        ⟨[("a", ⟨"", 1⟩)], []⟩).2 = ⟨[("a", ⟨"", 1⟩)], []⟩ :=
  ⟨rfl, rfl⟩

/-- C10 (amended).  `handle_replicate` answers `{status: ok}` for every
input whose numeric field parses under `float` — in particular for every
message `replicate_to_replicas` sends, whose amounts are always
numbers; a deposit or withdraw naming an account absent on the replica
is a silent no-op, and an unknown or missing action changes nothing.
Only an unparseable amount/balance string makes the handler raise, and
the wrapper then reports `status: error` with no state change. -/
theorem C10_amended_replicate_ok_unless_float_raises (m : ReplMsg)
    (s : BranchState)
    (hb : m.action = some "create_account" → parseAmt m.balance ≠ none)
    (ha : (m.action = some "deposit" ∨ m.action = some "withdraw") →
      parseAmt m.amount ≠ none) :
    (handle_replicate m s).1 = .ok ∧
    ((m.action = some "deposit" ∨ m.action = some "withdraw") →
      get_account? s m.account_no = none → (handle_replicate m s).2 = s) ∧
    ((m.action ≠ some "create_account" ∧ m.action ≠ some "deposit" ∧
        m.action ≠ some "withdraw") → (handle_replicate m s).2 = s) := by
  unfold handle_replicate
  by_cases h1 : (m.action == some "create_account") = true
  · rw [if_pos h1]
    have hc : m.action = some "create_account" := by simpa using h1
    cases hpb : parseAmt m.balance with
    | none => exact absurd hpb (hb hc)
    | some bal =>
      simp only [hpb]
      refine ⟨?_, ?_, ?_⟩
      · cases hacc : m.account_no with
        | none => rfl
        | some a =>
          simp only [hacc]
          cases hga : get_account s a <;> simp only [hga]
      · intro hdw _
        rcases hdw with hd | hw
        · rw [hc] at hd
          simp at hd
        · rw [hc] at hw
          simp at hw
      · intro hne
        exact absurd hc hne.1
  · rw [if_neg h1]
    by_cases h2 : (m.action == some "deposit") = true
    · rw [if_pos h2]
      have hc : m.action = some "deposit" := by simpa using h2
      cases hpa : parseAmt m.amount with
      | none => exact absurd hpa (ha (Or.inl hc))
      | some amt =>
        simp only [hpa]
        refine ⟨?_, ?_, ?_⟩
        · cases hga : get_account? s m.account_no <;> simp only [hga]
        · intro _ hnone
          simp only [hnone]
        · intro hne
          exact absurd hc hne.2.1
    · rw [if_neg h2]
      by_cases h3 : (m.action == some "withdraw") = true
      · rw [if_pos h3]
        have hc : m.action = some "withdraw" := by simpa using h3
        cases hpa : parseAmt m.amount with
        | none => exact absurd hpa (ha (Or.inr hc))
        | some amt =>
          simp only [hpa]
          refine ⟨?_, ?_, ?_⟩
          · cases hga : get_account? s m.account_no <;> simp only [hga]
          · intro _ hnone
            simp only [hnone]
          · intro hne
            exact absurd hc hne.2.2
      · rw [if_neg h3]
        exact ⟨rfl, fun _ _ => rfl, fun _ => rfl⟩

/-- Witness for the amended C10: an unknown action and a deposit on a
non-existent replica account, both with parseable numeric fields,
answer `ok` and change nothing. -/
theorem C10_amended_replicate_ok_unless_float_raises_witness :
    (handle_replicate ⟨some "frobnicate", some "a", none, none, some (.num 3)⟩
        ⟨[("a", ⟨"", 1⟩)], []⟩).1 = .ok ∧
    (handle_replicate ⟨some "frobnicate", some "a", none, none, some (.num 3)⟩
        ⟨[("a", ⟨"", 1⟩)], []⟩).2 = ⟨[("a", ⟨"", 1⟩)], []⟩ ∧
    (handle_replicate ⟨some "deposit", some "zzz", none, none, some (.num 3)⟩
        ⟨[("a", ⟨"", 1⟩)], []⟩).2 = ⟨[("a", ⟨"", 1⟩)], []⟩ :=
  ⟨(C10_amended_replicate_ok_unless_float_raises
      ⟨some "frobnicate", some "a", none, none, some (.num 3)⟩ _
      (fun _ => by simp [parseAmt]) (fun _ => by simp [parseAmt])).1,
   (C10_amended_replicate_ok_unless_float_raises
      ⟨some "frobnicate", some "a", none, none, some (.num 3)⟩ _
      (fun _ => by simp [parseAmt]) (fun _ => by simp [parseAmt])).2.2
     ⟨by decide, by decide, by decide⟩,
   (C10_amended_replicate_ok_unless_float_raises
      ⟨some "deposit", some "zzz", none, none, some (.num 3)⟩ _
      (fun _ => by simp [parseAmt]) (fun _ => by simp [parseAmt])).2.1
     (Or.inl rfl) (by rfl)⟩

theorem BankInv_update (s : BranchState) (k : String) (v : ℚ)
    (hs : BankInv s) (hv : 0 ≤ v) : BankInv (update_balance s k v) :=
  ⟨balances_update_balance hs.1 hv k, hs.2⟩

theorem BankInv_delete_pending (s : BranchState) (t : String)
    (hs : BankInv s) : BankInv (delete_pending s t) :=
  ⟨hs.1, fun e he => hs.2 e (List.mem_of_mem_filter he)⟩

theorem BankInv_delete_typed (s : BranchState) (t typ : String)
    (hs : BankInv s) : BankInv (delete_pending_typed s t typ) :=
  ⟨hs.1, fun e he => hs.2 e (List.mem_of_mem_filter he)⟩

theorem BankInv_insert_pending (s : BranchState) (t : String) (row : PendingRow)
    (hs : BankInv s) (hrow : row.type = "deposit" → 0 ≤ row.amount) :
    BankInv (insert_or_replace_pending s t row) := by
  refine ⟨hs.1, ?_⟩
  intro e he
  rcases List.mem_append.mp he with hl | hr
  · exact hs.2 e (List.mem_of_mem_filter hl)
  · have : e = (t, row) := by simpa using hr
    rw [this]
    exact hrow

theorem BankInv_append_account (s : BranchState) (acc name : String) (bal : ℚ)
    (hs : BankInv s) (hb : 0 ≤ bal) :
    BankInv { s with accounts := s.accounts ++ [(acc, ⟨name, bal⟩)] } := by
  refine ⟨?_, hs.2⟩
  intro e he
  rcases List.mem_append.mp he with hl | hr
  · exact hs.1 e hl
  · have : e = (acc, ⟨name, bal⟩) := by simpa using hr
    rw [this]
    exact hb

theorem find_pending_mem {s : BranchState} {t typ : String} {row : PendingRow}
    (h : find_pending s t typ = some row) :
    (∃ e ∈ s.pending_tx, e.2 = row) ∧ row.type = typ := by
  unfold find_pending at h
  cases hf : s.pending_tx.find? (fun e => e.1 == t && e.2.type == typ) with
  | none => rw [hf] at h; simp at h
  | some e =>
    rw [hf] at h
    have hmem := List.mem_of_find?_eq_some hf
    have hpred := List.find?_some hf
    simp at h hpred
    refine ⟨⟨e, hmem, h⟩, ?_⟩
    rw [← h]
    exact hpred.2

theorem BankInv_handle_deposit (acc? : Option String) (amt : ℚ) (s : BranchState)
    (hs : BankInv s) (ha : 0 ≤ amt) :
    BankInv (handle_deposit acc? (some (.num amt)) s).2 := by
  unfold handle_deposit
  simp only [parseAmt]
  split
  · exact hs
  · split
    · exact hs
    · next acct heq =>
      exact BankInv_update s _ _ hs
        (add_nonneg (hs.1 _ (get_account_mem heq)) ha)

theorem BankInv_handle_withdraw (acc? : Option String) (amt : ℚ) (s : BranchState)
    (hs : BankInv s) :
    BankInv (handle_withdraw acc? (some (.num amt)) s).2 := by
  unfold handle_withdraw
  simp only [parseAmt]
  split
  · exact hs
  · split
    · exact hs
    · next acct heq =>
      split
      · exact hs
      · next hlt =>
        exact BankInv_update s _ _ hs (sub_nonneg.mpr (not_lt.mp hlt))

theorem BankInv_handle_create (acc? : Option String) (name : String) (bal : ℚ)
    (s : BranchState) (hs : BankInv s) (hb : 0 ≤ bal) :
    BankInv (handle_create_account acc? name bal s).2 := by
  unfold handle_create_account
  split
  · exact hs
  · simp only []
    split
    · exact hs
    · exact BankInv_append_account s _ name bal hs hb

theorem BankInv_handle_prepare_withdraw (txid? acc? : Option String) (amt : ℚ)
    (s : BranchState) (hs : BankInv s) :
    BankInv (handle_prepare_withdraw txid? acc? (some (.num amt)) s).2 := by
  unfold handle_prepare_withdraw
  simp only [parseAmt]
  split
  · exact hs
  · split
    · exact hs
    · split
      · exact hs
      · exact BankInv_insert_pending s _ _ hs (fun h => by simp at h)

theorem BankInv_handle_prepare_deposit (txid? acc? : Option String) (amt : ℚ)
    (s : BranchState) (hs : BankInv s) (ha : 0 ≤ amt) :
    BankInv (handle_prepare_deposit txid? acc? (some (.num amt)) s).2 := by
  unfold handle_prepare_deposit
  simp only [parseAmt]
  split
  · exact hs
  · split
    · exact hs
    · exact BankInv_insert_pending s _ _ hs (fun _ => ha)

theorem BankInv_handle_commit_withdraw (txid? : Option String) (s : BranchState)
    (hs : BankInv s) : BankInv (handle_commit_withdraw txid? s).2 := by
  unfold handle_commit_withdraw
  split
  · exact hs
  · simp only []
    split
    · exact hs
    · next row hrow =>
      split
      · exact BankInv_delete_pending s _ hs
      · next acct hacct =>
        split
        · exact BankInv_delete_pending s _ hs
        · next hlt =>
          exact BankInv_delete_pending _ _
            (BankInv_update s _ _ hs (sub_nonneg.mpr (not_lt.mp hlt)))

theorem BankInv_handle_commit_deposit (txid? : Option String) (s : BranchState)
    (hs : BankInv s) : BankInv (handle_commit_deposit txid? s).2 := by
  unfold handle_commit_deposit
  split
  · exact hs
  · simp only []
    split
    · exact hs
    · next row hrow =>
      split
      · exact BankInv_delete_pending s _ hs
      · next acct hacct =>
        obtain ⟨⟨e, hmem, hrow2⟩, hty⟩ := find_pending_mem hrow
        have hamt : 0 ≤ row.amount := by
          rw [← hrow2]
          exact hs.2 e hmem (by rw [hrow2, hty])
        exact BankInv_delete_pending _ _
          (BankInv_update s _ _ hs
            (add_nonneg (hs.1 _ (get_account_mem hacct)) hamt))

theorem BankInv_handle_abort_withdraw (txid? : Option String) (s : BranchState)
    (hs : BankInv s) : BankInv (handle_abort_withdraw txid? s).2 := by
  unfold handle_abort_withdraw
  split
  · exact hs
  · exact BankInv_delete_typed s _ _ hs

theorem BankInv_handle_abort_deposit (txid? : Option String) (s : BranchState)
    (hs : BankInv s) : BankInv (handle_abort_deposit txid? s).2 := by
  unfold handle_abort_deposit
  split
  · exact hs
  · exact BankInv_delete_typed s _ _ hs

theorem BankInv_local_transfer (src dest : String) (amt : ℚ) (s : BranchState)
    (hs : BankInv s) (ha : 0 ≤ amt) :
    BankInv (local_transfer src dest amt s).2 := by
  unfold local_transfer
  split
  · exact hs
  · next srcA hsrc =>
    split
    · exact hs
    · next destA hdest =>
      split
      · exact hs
      · next hlt =>
        exact BankInv_update _ _ _
          (BankInv_update s _ _ hs (sub_nonneg.mpr (not_lt.mp hlt)))
          (add_nonneg (hs.1 _ (get_account_mem hdest)) ha)

theorem BankInv_handle_local_transfer (src? dest? : Option String) (amt : ℚ)
    (s : BranchState) (hs : BankInv s) (ha : 0 ≤ amt) :
    BankInv (handle_local_transfer src? dest? (some (.num amt)) s).2 := by
  unfold handle_local_transfer
  simp only [parseAmt]
  split
  · exact hs
  · exact BankInv_local_transfer _ _ amt s hs ha

theorem BankInv_handle_replicate (m : ReplMsg) (s : BranchState)
    (hs : BankInv s) (hnw : m.action ≠ some "withdraw")
    (hamt : 0 ≤ (parseAmt m.amount).getD 0)
    (hbal : 0 ≤ (parseAmt m.balance).getD 0) :
    BankInv (handle_replicate m s).2 := by
  unfold handle_replicate
  split
  · split
    · exact hs
    · next bal hpb =>
      split
      · exact hs
      · next a hacc =>
        split
        · exact hs
        · have hb0 : 0 ≤ bal := by
            rw [hpb] at hbal
            simpa using hbal
          exact BankInv_append_account s a _ _ hs hb0
  · split
    · split
      · exact hs
      · next amt hpa =>
        split
        · exact hs
        · next acct heq =>
          have ha0 : 0 ≤ amt := by
            rw [hpa] at hamt
            simpa using hamt
          cases hacc : m.account_no with
          | none =>
            rw [hacc] at heq
            simp [get_account?] at heq
          | some a =>
            rw [hacc] at heq
            have heq2 : get_account s a = some acct := heq
            exact BankInv_update s _ _ hs
              (add_nonneg (hs.1 _ (get_account_mem heq2)) ha0)
    · split
      · next h3 =>
        exact absurd (by simpa using h3) hnw
      · exact hs

theorem BankInv_apply {s : BranchState} (hs : BankInv s) :
    ∀ op : Op, GoodOp op → BankInv (apply op s) := by
  intro op hop
  cases op with
  | create acc name bal => exact BankInv_handle_create _ name bal s hs hop
  | deposit acc amt => exact BankInv_handle_deposit _ amt s hs hop
  | withdraw acc amt => exact BankInv_handle_withdraw _ amt s hs
  | localTransfer src dest amt =>
    exact BankInv_handle_local_transfer _ _ amt s hs hop
  | prepareWithdraw txid acc amt =>
    exact BankInv_handle_prepare_withdraw _ _ amt s hs
  | commitWithdraw txid => exact BankInv_handle_commit_withdraw _ s hs
  | abortWithdraw txid => exact BankInv_handle_abort_withdraw _ s hs
  | prepareDeposit txid acc amt =>
    exact BankInv_handle_prepare_deposit _ _ amt s hs hop
  | commitDeposit txid => exact BankInv_handle_commit_deposit _ s hs
  | abortDeposit txid => exact BankInv_handle_abort_deposit _ s hs
  | replicate m => exact BankInv_handle_replicate m s hs hop.1 hop.2.1 hop.2.2

theorem BankInv_applyOps :
    ∀ (ops : List Op) (s : BranchState), BankInv s →
      (∀ op ∈ ops, GoodOp op) → BankInv (applyOps s ops) := by
  intro ops
  induction ops with
  | nil => intro s hs _; exact hs
  | cons op ops ih =>
    intro s hs hops
    exact ih (apply op s) (BankInv_apply hs op (hops op (List.mem_cons_self op ops)))
      (fun o ho => hops o (List.mem_cons_of_mem _ ho))

/-- C1 counterexample.  Starting from an empty branch, `create_account`
with balance `0` (non-negative) followed by one `handle_replicate`
withdraw message of amount `5` — both operations in the claim's list —
leaves the account at balance `-5`: the replica apply path debits with
no funds check, refuting the non-negativity invariant as claimed. -/
theorem C1_counterexample :
    ¬ (∀ e ∈ (applyOps ⟨[], []⟩
        [.create "a" "" 0,
         .replicate ⟨some "withdraw", some "a", none, none, some (.num 5)⟩]).accounts,
        0 ≤ e.2.balance) := by
  intro h
  have hm : ("a", Account.mk "" ((0:ℚ) - 5)) ∈ (applyOps ⟨[], []⟩
      [.create "a" "" 0,
       .replicate ⟨some "withdraw", some "a", none, none, some (.num 5)⟩]).accounts := by
    show ("a", Account.mk "" ((0:ℚ) - 5)) ∈ [("a", Account.mk "" ((0:ℚ) - 5))]
    exact List.mem_singleton.mpr rfl
  have h2 := h _ hm
  norm_num at h2

/-- C1 (amended).  From any state satisfying the invariant (all balances
non-negative and all journalled deposit amounts non-negative — e.g. any
state with non-negative balances and an empty `pending_tx`), every
sequence of the write operations with non-negative amounts that contains
no replicated-withdraw message keeps every balance ≥ 0.  Replicated
withdrawals (and negative amounts, which no handler rejects) can drive
balances negative — see the counterexample. -/
theorem C1_amended_nonneg_invariant (s : BranchState) (ops : List Op)
    (hs : BankInv s) (hops : ∀ op ∈ ops, GoodOp op) :
    ∀ e ∈ (applyOps s ops).accounts, 0 ≤ e.2.balance :=
  (BankInv_applyOps ops s hs hops).1

/-- Witness for the amended C1 on a concrete state and operation list. -/
theorem C1_amended_nonneg_invariant_witness :
    BankInv ⟨[("a", ⟨"", 0⟩)], []⟩ ∧
    (∀ op ∈ [Op.deposit "a" 3, Op.withdraw "a" 2,
        Op.localTransfer "a" "a" 1], GoodOp op) ∧
    ∀ e ∈ (applyOps ⟨[("a", ⟨"", 0⟩)], []⟩
        [Op.deposit "a" 3, Op.withdraw "a" 2,
         Op.localTransfer "a" "a" 1]).accounts, 0 ≤ e.2.balance := by
  have hs : BankInv (⟨[("a", ⟨"", 0⟩)], []⟩ : BranchState) := by
    constructor
    · intro e he
      have : e = ("a", (⟨"", 0⟩ : Account)) := by simpa using he
      rw [this]
    · intro e he
      simp at he
  have hops : ∀ op ∈ [Op.deposit "a" 3, Op.withdraw "a" 2,
      Op.localTransfer "a" "a" 1], GoodOp op := by
    intro op hop
    simp only [List.mem_cons, List.not_mem_nil, or_false] at hop
    rcases hop with h | h | h <;> rw [h]
    · show (0:ℚ) ≤ 3
      norm_num
    · trivial
    · show (0:ℚ) ≤ 1
      norm_num
  exact ⟨hs, hops, C1_amended_nonneg_invariant _ _ hs hops⟩
